import Mathlib

/-!
Verification of the Enclave peer networking engine.

This file shallowly embeds the data model and the handlers of the Enclave
repository (src/enclave/src-tauri) in Lean and proves properties of them.

Modelling conventions:
* The SQLite store (db/mod.rs) is a record of per-table row lists plus the
  next-rowid counter of each table.  INSERT appends; SELECT without ORDER BY
  returns rows in rowid (insertion) order, which the lists reflect.
* rusqlite query_row returns the first matching row, modelled by List.find?.
  The "query.exists" guard that turns an empty result set into Err is modelled
  by the isEmpty checks below, exactly where the source has it.
* anyhow::Result is Except String.  Timestamps (chrono::Utc::now) and the
  results of environment calls (swarm.is_connected, swarm.dial) are threaded
  into the handlers as explicit parameters.
* Peer identifiers are modelled as raw strings; PeerId::from_str and
  Multiaddr parsing are modelled as always succeeding on these strings.
* The UNIQUE(user_id) constraint of tbl_friends and tbl_blocked_users and the
  foreign keys (PRAGMA foreign_keys = ON) are enforced by the create
  operations, as SQLite does.
-/

namespace db

structure Identity where
  id : Int
  keypair : List Nat
  peer_id : String
  port_number : Int
  created_at : Int
deriving Repr, DecidableEq

structure User where
  id : Int
  peer_id : String
  multiaddr : String
  nickname : Option String
  is_identity : Bool
  created_at : Int
deriving Repr, DecidableEq

structure FriendRequest where
  id : Int
  from_user_id : Int
  message : String
  created_at : Int
deriving Repr, DecidableEq

/-- Friend row as selected by db/mod.rs (id, user_id, created_at). -/
structure Friend where
  id : Int
  user_id : Int
  created_at : Int
deriving Repr, DecidableEq

structure DirectMessage where
  id : Int
  from_peer_id : String
  to_peer_id : String
  content : String
  created_at : Int
  edited_at : Option Int
  read : Bool
deriving Repr, DecidableEq

structure Post where
  id : Int
  author_peer_id : String
  content : String
  created_at : Int
  edited_at : Option Int
deriving Repr, DecidableEq

structure BlockedUser where
  id : Int
  user_id : Int
  blocked_at : Int
deriving Repr, DecidableEq

/-- The whole relational store: one list per table (in rowid order) plus the
next rowid of each table. -/
structure Database where
  identity : Option Identity
  users : List User
  friend_requests : List FriendRequest
  friends : List Friend
  direct_messages : List DirectMessage
  posts : List Post
  blocked_users : List BlockedUser
  next_user_id : Int
  next_friend_request_id : Int
  next_friend_id : Int
  next_direct_message_id : Int
  next_post_id : Int
  next_blocked_user_id : Int
deriving Repr, DecidableEq

/-- A freshly initialised database (init_db creates empty tables). -/
def emptyDb : Database :=
  { identity := none, users := [], friend_requests := [], friends := []
    direct_messages := [], posts := [], blocked_users := []
    next_user_id := 1, next_friend_request_id := 1, next_friend_id := 1
    next_direct_message_id := 1, next_post_id := 1, next_blocked_user_id := 1 }

def fetch_identity (dbs : Database) : Except String Identity :=
  match dbs.identity with
  | some i => .ok i
  | none => .error "No identity data was found."

def fetch_user_by_id (dbs : Database) (id : Int) : Except String User :=
  match dbs.users.find? (fun u => u.id == id) with
  | some u => .ok u
  | none => .error "No user with the id was found."

def fetch_user_by_peer_id (dbs : Database) (peer_id : String) : Except String User :=
  match dbs.users.find? (fun u => u.peer_id == peer_id) with
  | some u => .ok u
  | none => .error "No user with the peer_id was found."

/-- Plain INSERT into tbl_users (no uniqueness constraint on peer_id). -/
def create_user (dbs : Database) (peer_id : String) (multiaddr : String)
    (is_identity : Bool) (now : Int) : Except String (Database × Int) :=
  let id := dbs.next_user_id
  .ok ({ dbs with
          users := dbs.users ++
            [{ id := id, peer_id := peer_id, multiaddr := multiaddr
               nickname := none, is_identity := is_identity, created_at := now }]
          next_user_id := id + 1 }, id)

def fetch_friend_request_by_from_user_id (dbs : Database) (from_user_id : Int) :
    Except String FriendRequest :=
  match dbs.friend_requests.find? (fun r => r.from_user_id == from_user_id) with
  | some r => .ok r
  | none => .error "A friend request with from_user_id was not found."

def fetch_all_friend_requests (dbs : Database) : Except String (List FriendRequest) :=
  if dbs.friend_requests.isEmpty then
    .error "No friend request data was found."
  else
    .ok dbs.friend_requests

/-- Plain INSERT into tbl_friend_requests; the foreign key on from_user_id is
checked, nothing else (duplicates per originator are allowed). -/
def create_friend_request (dbs : Database) (from_user_id : Int) (message : String)
    (now : Int) : Except String (Database × Int) :=
  if dbs.users.any (fun u => u.id == from_user_id) then
    let id := dbs.next_friend_request_id
    .ok ({ dbs with
            friend_requests := dbs.friend_requests ++
              [{ id := id, from_user_id := from_user_id, message := message
                 created_at := now }]
            next_friend_request_id := id + 1 }, id)
  else
    .error "FOREIGN KEY constraint failed"

def delete_friend_request (dbs : Database) (id : Int) : Except String Database :=
  .ok { dbs with friend_requests := dbs.friend_requests.filter (fun r => r.id != id) }

def fetch_friend_by_user_id (dbs : Database) (user_id : Int) : Except String Friend :=
  match dbs.friends.find? (fun f => f.user_id == user_id) with
  | some f => .ok f
  | none => .error "A friend with user_id was not found."

def fetch_all_friends (dbs : Database) : Except String (List Friend) :=
  if dbs.friends.isEmpty then
    .error "No friend data was found."
  else
    .ok dbs.friends

/-- INSERT into tbl_friends, honouring UNIQUE(user_id) and the foreign key. -/
def create_friend (dbs : Database) (user_id : Int) (now : Int) :
    Except String (Database × Int) :=
  if dbs.friends.any (fun f => f.user_id == user_id) then
    .error "UNIQUE constraint failed: tbl_friends.user_id"
  else if dbs.users.any (fun u => u.id == user_id) then
    let id := dbs.next_friend_id
    .ok ({ dbs with
            friends := dbs.friends ++
              [{ id := id, user_id := user_id, created_at := now }]
            next_friend_id := id + 1 }, id)
  else
    .error "FOREIGN KEY constraint failed"

def fetch_direct_message_by_id (dbs : Database) (id : Int) :
    Except String DirectMessage :=
  match dbs.direct_messages.find? (fun m => m.id == id) with
  | some m => .ok m
  | none => .error "A direct message with id was not found."

def fetch_direct_messages_with_peer (dbs : Database) (peer_id : String) :
    Except String (List DirectMessage) :=
  let ms := dbs.direct_messages.filter
    (fun m => m.from_peer_id == peer_id || m.to_peer_id == peer_id)
  if ms.isEmpty then
    .error "A direct message with user_id was not found."
  else
    .ok ms

def create_direct_message (dbs : Database) (from_peer_id : String)
    (to_peer_id : String) (content : String) (now : Int) :
    Except String (Database × Int) :=
  let id := dbs.next_direct_message_id
  .ok ({ dbs with
          direct_messages := dbs.direct_messages ++
            [{ id := id, from_peer_id := from_peer_id, to_peer_id := to_peer_id
               content := content, created_at := now, edited_at := none
               read := false }]
          next_direct_message_id := id + 1 }, id)

def fetch_all_posts (dbs : Database) : Except String (List Post) :=
  if dbs.posts.isEmpty then
    .error "No post data was found."
  else
    .ok dbs.posts

def is_user_blocked (dbs : Database) (user_id : Int) : Except String Bool :=
  .ok (dbs.blocked_users.any (fun b => b.user_id == user_id))

end db

namespace p2p

abbrev PeerId := String

/-- Wire friend request (p2p/types.rs). -/
structure FriendRequest where
  from_peer_id : String
  from_multiaddr : String
  message : String
deriving Repr, DecidableEq

structure FriendRequestResponse where
  accepted : Bool
  multiaddr : String
deriving Repr, DecidableEq

structure SynchRequest where
  since : Int
  sender : String
deriving Repr, DecidableEq

structure SynchResponse where
  created_posts : List db.Post
  edited_posts : List db.Post
  sender : String
deriving Repr, DecidableEq

inductive P2PMessage where
  | friendRequest (r : FriendRequest)
  | friendRequestResponse (r : FriendRequestResponse)
  | directMessage (m : db.DirectMessage)
  | synchRequest (r : SynchRequest)
  | synchResponse (r : SynchResponse)
deriving Repr, DecidableEq

inductive P2PEvent where
  | directMessageReceived (m : db.DirectMessage)
  | directMessageSent (m : db.DirectMessage)
  | postRecieved (p : db.Post)
  | peerConnected (p : PeerId)
  | peerDisconnected (p : PeerId)
  | friendRequestReceived (from_peer : PeerId) (request : FriendRequest)
  | friendRequestAccepted (peer : PeerId)
  | friendRequestDenied (peer : PeerId)
  | error (context : String) (err : String)
  | postSynch
deriving Repr, DecidableEq

/-- Legacy wire direct message of the src/p2p.rs revision; its source field
named from is rendered from_peer here (from is a Lean keyword). -/
structure LegacyDirectMessage where
  from_peer : String
  content : String
  timestamp : Int
deriving Repr, DecidableEq

/-- Externally observable effects of a handler: upstream events, swarm sends,
dials and gossip publishes, in program order. -/
inductive Action where
  | emit (e : P2PEvent)
  | sendRequest (peer : PeerId) (msg : P2PMessage)
  | sendResponse (msg : P2PMessage)
  | dial (address : String)
  | publish (topic : String) (payload : LegacyDirectMessage)
  | addExplicitPeer (peer : PeerId)
deriving Repr, DecidableEq

/-- Association-list lookup standing in for HashMap get. -/
def alist_get {α : Type} (m : List (PeerId × α)) (k : PeerId) : Option α :=
  (m.find? (fun e => e.1 == k)).map (fun e => e.2)

/-- HashMap insert: the new binding replaces any previous one. -/
def alist_insert {α : Type} (m : List (PeerId × α)) (k : PeerId) (v : α) :
    List (PeerId × α) :=
  (k, v) :: m.filter (fun e => e.1 != k)

/-- HashMap remove. -/
def alist_remove {α : Type} (m : List (PeerId × α)) (k : PeerId) :
    List (PeerId × α) :=
  m.filter (fun e => e.1 != k)

/-- The volatile state owned by the event loop (spawn_event_loop locals). -/
structure LoopState where
  friend_list : List PeerId
  inbound_friend_requests : List (PeerId × FriendRequest)
  direct_messages : List (PeerId × List db.DirectMessage)
  outbound_friend_requests : List (PeerId × FriendRequest)
  pending_friend_request_responses : List (PeerId × P2PMessage)
  outbound_direct_messages : List (PeerId × List db.DirectMessage)
deriving Repr, DecidableEq

/-- A handler step: the updated store, the updated loop state, and the effects
in the order the code performs them. -/
abbrev Step := db.Database × LoopState × List Action

/-- EventHandler::handle_friend_request (event_handler.rs). It emits the
upstream event, looks the originator up in tbl_users (emitting an Error and
stopping if absent), then inserts a friend-request row. It never writes to
tbl_users and never touches the loop state. -/
def handle_friend_request (peer : PeerId) (request : FriendRequest) (now : Int)
    (dbs : db.Database) (st : LoopState) : Step :=
  let ev := Action.emit (.friendRequestReceived peer request)
  match db.fetch_user_by_peer_id dbs peer with
  | .error err => (dbs, st, [ev, .emit (.error "fetch_user_by_peer_id" err)])
  | .ok user =>
    match db.create_friend_request dbs user.id request.message now with
    | .error err => (dbs, st, [ev, .emit (.error "create_friend_request" err)])
    | .ok (dbs2, _) => (dbs2, st, [ev])

/-- EventHandler::handle_friend_request_response (event_handler.rs). -/
def handle_friend_request_response (peer : PeerId)
    (response : FriendRequestResponse) (now : Int)
    (dbs : db.Database) (st : LoopState) : Step :=
  if response.accepted then
    if st.friend_list.contains peer then
      (dbs, st, [.emit (.friendRequestAccepted peer)])
    else
      match db.fetch_user_by_peer_id dbs peer with
      | .error err => (dbs, st, [.emit (.error "fetch_user_by_peer_id" err)])
      | .ok user =>
        match db.create_friend dbs user.id now with
        | .error err => (dbs, st, [.emit (.error "create_friend" err)])
        | .ok (dbs2, _) =>
          (dbs2, { st with friend_list := st.friend_list ++ [peer] },
           [.addExplicitPeer peer, .emit (.friendRequestAccepted peer)])
  else
    (dbs, st, [.emit (.friendRequestDenied peer)])

/-- EventHandler::handle_direct_message (event_handler.rs). The sender is
gated on the in-memory friend list only; tbl_blocked_users is not consulted.
A failed row insert emits an Error but the cache append and the upstream
event still happen, as in the source. -/
def handle_direct_message (msg : db.DirectMessage) (now : Int)
    (dbs : db.Database) (st : LoopState) : Step :=
  let from_peer_id := msg.from_peer_id
  match db.fetch_identity dbs with
  | .error err => (dbs, st, [.emit (.error "fetch_identity" err)])
  | .ok ident =>
    if st.friend_list.contains from_peer_id then
      let ins := db.create_direct_message dbs msg.from_peer_id ident.peer_id
        msg.content now
      let dbs2 := match ins with
        | .error _ => dbs
        | .ok (d2, _) => d2
      let errActs : List Action := match ins with
        | .error err => [.emit (.error "create_direct_message" err)]
        | .ok _ => []
      let current := ((alist_get st.direct_messages from_peer_id).getD []) ++ [msg]
      let st2 := { st with
        direct_messages := alist_insert st.direct_messages from_peer_id current }
      (dbs2, st2, errActs ++ [.emit (.directMessageReceived msg)])
    else
      (dbs, st, [])

/-- EventHandler::handle_connection_established (event_handler.rs): emit
PeerConnected, INSERT a user row for the endpoint address, then drain the
buffered friend request, the pending response and the direct-message queue
for that peer, in that order. -/
def handle_connection_established (peer : PeerId) (endpoint_addr : String)
    (now : Int) (dbs : db.Database) (st : LoopState) : Step :=
  let acts0 : List Action := [.emit (.peerConnected peer)]
  let (dbs2, acts1) : db.Database × List Action :=
    match db.create_user dbs peer endpoint_addr false now with
    | .error err => (dbs, [.emit (.error "create_user" err)])
    | .ok (d2, _) => (d2, [])
  let (st2, acts2) : LoopState × List Action :=
    match alist_get st.outbound_friend_requests peer with
    | some request =>
      ({ st with outbound_friend_requests :=
           alist_remove st.outbound_friend_requests peer },
       [.sendRequest peer (.friendRequest request)])
    | none => (st, [])
  let (st3, acts3) : LoopState × List Action :=
    match alist_get st2.pending_friend_request_responses peer with
    | some response =>
      ({ st2 with pending_friend_request_responses :=
           alist_remove st2.pending_friend_request_responses peer },
       [.sendRequest peer response])
    | none => (st2, [])
  let (st4, acts4) : LoopState × List Action :=
    match alist_get st3.outbound_direct_messages peer with
    | some dms =>
      ({ st3 with outbound_direct_messages :=
           alist_remove st3.outbound_direct_messages peer },
       dms.map (fun dm => .sendRequest peer (.directMessage dm)))
    | none => (st3, [])
  (dbs2, st4, acts0 ++ acts1 ++ acts2 ++ acts3 ++ acts4)

end p2p

namespace p2p

/-- CommandHandler::handle_send_direct_message (command_handler.rs).
self_peer_id is swarm.local_peer_id; connected is the result of
swarm.is_connected and dial_ok the success of swarm.dial. A non-friend target
returns immediately with no effect. -/
def handle_send_direct_message (peer : PeerId) (address : String)
    (content : String) (self_peer_id : String) (connected : Bool)
    (dial_ok : Bool) (now : Int) (dbs : db.Database) (st : LoopState) : Step :=
  if st.friend_list.contains peer then
    match db.create_direct_message dbs self_peer_id peer content now with
    | .error err => (dbs, st, [.emit (.error "create_direct_message" err)])
    | .ok (dbs2, direct_message_id) =>
      match db.fetch_direct_message_by_id dbs2 direct_message_id with
      | .error err => (dbs2, st, [.emit (.error "fetch_direct_message_by_id" err)])
      | .ok message =>
        let sent := Action.emit (.directMessageSent message)
        if connected then
          (dbs2, st, [sent, .sendRequest peer (.directMessage message)])
        else
          let q := (alist_get st.outbound_direct_messages peer).getD []
          let odm2 := alist_insert st.outbound_direct_messages peer (q ++ [message])
          let st2 := { st with outbound_direct_messages := odm2 }
          if dial_ok then
            (dbs2, st2, [sent, .dial address])
          else
            let odm3 := alist_insert st2.outbound_direct_messages peer q
            let st3 := { st2 with outbound_direct_messages := odm3 }
            (dbs2, st3, [sent, .dial address, .emit (.error "swarm.dial" "DialError")])
  else
    (dbs, st, [])

/-- The advertised address computation shared by the command handlers: the
relay circuit address when a relay is configured, otherwise the first listen
address (empty string when none). -/
def address_to_send (listen_addresses : List String)
    (relay_addr : Option String) (self_peer_id : String) : String :=
  match relay_addr with
  | some relay => relay ++ "/p2p-circuit/p2p/" ++ self_peer_id
  | none => (listen_addresses.head?).getD ""

/-- The tail of handle_accept_friend_request shared by both entry paths:
build the accepting response with our advertised address, then send it
immediately when connected, else buffer it and dial the peer's stored
address (dropping the buffer entry again when the dial fails). -/
def accept_send_response (peer : PeerId) (self_peer_id : String)
    (listen_addresses : List String) (relay_addr : Option String)
    (connected : Bool) (dial_ok : Bool)
    (dbs : db.Database) (st : LoopState) (acts1 : List Action) : Step :=
  let response : P2PMessage := .friendRequestResponse
    { accepted := true
      multiaddr := address_to_send listen_addresses relay_addr self_peer_id }
  if connected then
    (dbs, st, acts1 ++ [.sendRequest peer response])
  else
    match db.fetch_user_by_peer_id dbs peer with
    | .error err => (dbs, st, acts1 ++ [.emit (.error "fetch_user_by_peer_id" err)])
    | .ok user =>
      let pend2 := alist_insert st.pending_friend_request_responses peer response
      let st3 := { st with pending_friend_request_responses := pend2 }
      if dial_ok then
        (dbs, st3, acts1 ++ [.dial user.multiaddr])
      else
        (dbs, st, acts1 ++ [.dial user.multiaddr, .emit (.error "swarm.dial" "DialError")])

/-- CommandHandler::handle_accept_friend_request (command_handler.rs): when
the peer is not yet in the friend list, insert the Friend row (aborting with
an Error event on failure), delete the pending request row if one exists,
append the peer to the friend list and register it as explicit gossip peer;
then send or buffer the accepting response. -/
def handle_accept_friend_request (peer : PeerId) (self_peer_id : String)
    (listen_addresses : List String) (relay_addr : Option String)
    (connected : Bool) (dial_ok : Bool) (now : Int)
    (dbs : db.Database) (st : LoopState) : Step :=
  if st.friend_list.contains peer then
    accept_send_response peer self_peer_id listen_addresses relay_addr
      connected dial_ok dbs st []
  else
    match db.fetch_user_by_peer_id dbs peer with
    | .error err => (dbs, st, [.emit (.error "fetch_user_by_peer_id" err)])
    | .ok user =>
      match db.create_friend dbs user.id now with
      | .error err => (dbs, st, [.emit (.error "create_friend" err)])
      | .ok (dbs2, _) =>
        let dbs3 := match db.fetch_friend_request_by_from_user_id dbs2 user.id with
          | .ok friend_request =>
            match db.delete_friend_request dbs2 friend_request.id with
            | .ok d => d
            | .error _ => dbs2
          | .error _ => dbs2
        accept_send_response peer self_peer_id listen_addresses relay_addr
          connected dial_ok dbs3
          { st with friend_list := st.friend_list ++ [peer] }
          [.addExplicitPeer peer]

/-- Rust derives PartialOrd on Option with None below Some; the handler
compares edited_at (an Option) against Some(since) with >=. -/
def rust_option_ge (a : Option Int) (b : Option Int) : Bool :=
  match a, b with
  | none, none => true
  | none, some _ => false
  | some _, none => true
  | some x, some y => y ≤ x

def synch_created_posts (posts : List db.Post) (since : Int) : List db.Post :=
  posts.filter (fun p => since ≤ p.created_at)

def synch_edited_posts (posts : List db.Post) (since : Int) : List db.Post :=
  posts.filter (fun p => rust_option_ge p.edited_at (some since))

/-- The SynchResponse the handler computes from the stored posts (the sender
field is overwritten with swarm.local_peer_id before sending). -/
def synch_response_of (since : Int) (self_peer_id : String)
    (dbs : db.Database) : SynchResponse :=
  { created_posts := synch_created_posts dbs.posts since
    edited_posts := synch_edited_posts dbs.posts since
    sender := self_peer_id }

/-- EventHandler::handle_synch_request (event_handler.rs): on a fetch error the
post list falls back to empty but a response is still sent. -/
def handle_synch_request (since : Int) (_sender : String) (self_peer_id : String)
    (dbs : db.Database) (st : LoopState) : Step :=
  let (posts, errActs) : List db.Post × List Action :=
    match db.fetch_all_posts dbs with
    | .ok p => (p, [])
    | .error err => ([], [.emit (.error "fetch_all_posts" err)])
  let created_posts := synch_created_posts posts since
  let edited_posts := synch_edited_posts posts since
  (dbs, st,
   errActs ++ [.sendResponse (.synchResponse
     { created_posts := created_posts, edited_posts := edited_posts
       sender := self_peer_id })])

/-- The SwarmCommand::SendMessage arm of handle_swarm_command in p2p/mod.rs:
its whole body is commented out in the source, so the command has no effect. -/
def handle_send_message (_content : String) (_self_peer_id : String)
    (_now : Int) (dbs : db.Database) (st : LoopState) : Step :=
  (dbs, st, [])

/-- The SwarmCommand::SendMessage arm of the src/p2p.rs revision: build a
legacy DirectMessage from the local peer id and the current time, serialize
it (serde_json, abstracted to the structured payload) and publish it on the
gossip topic. Nothing is persisted. -/
def legacy_handle_send_message (content : String) (self_peer_id : String)
    (now : Int) (dbs : db.Database) (st : LoopState) : Step :=
  let message : LegacyDirectMessage :=
    { from_peer := self_peer_id, content := content, timestamp := now }
  (dbs, st, [.publish "enclave-messages" message])

/-- load_friend_list (p2p/mod.rs): on a fetch error emit an Error event and
fall back to the empty list; otherwise join each Friend row to its user row
and keep the peer ids that resolve. -/
def load_friend_list (dbs : db.Database) : List PeerId × List Action :=
  match db.fetch_all_friends dbs with
  | .error err => ([], [.emit (.error "fetch_all_friends" err)])
  | .ok friends =>
    (friends.filterMap (fun f =>
      match db.fetch_user_by_id dbs f.user_id with
      | .ok user => some user.peer_id
      | .error _ => none), [])

/-- load_inbound_requests (p2p/mod.rs). -/
def load_inbound_requests (dbs : db.Database) :
    List (PeerId × FriendRequest) × List Action :=
  match db.fetch_all_friend_requests dbs with
  | .error err => ([], [.emit (.error "fetch_all_friend_requests" err)])
  | .ok reqs =>
    (reqs.filterMap (fun r =>
      match db.fetch_user_by_id dbs r.from_user_id with
      | .ok user => some (user.peer_id,
          { from_peer_id := user.peer_id, from_multiaddr := user.multiaddr
            message := r.message })
      | .error _ => none), [])

/-- The loop state built before the first iteration of spawn_event_loop: the
friend list and inbound map are loaded from the store once; every other
container starts empty. -/
def initial_loop_state (dbs : db.Database) : LoopState × List Action :=
  let (fl, a1) := load_friend_list dbs
  let (ir, a2) := load_inbound_requests dbs
  ({ friend_list := fl, inbound_friend_requests := ir, direct_messages := []
     outbound_friend_requests := [], pending_friend_request_responses := []
     outbound_direct_messages := [] }, a1 ++ a2)

end p2p

namespace spec

/-- Modelled from the spec: the set of peer identifiers reachable via the
Friend to Peer join, the projection the in-memory friend set is claimed to
equal at loop entry. -/
def friendSetProjection (dbs : db.Database) : List p2p.PeerId :=
  dbs.friends.filterMap (fun f =>
    (dbs.users.find? (fun u => u.id == f.user_id)).map (fun u => u.peer_id))

/-- Modelled from the spec: the projection of the FriendRequest table keyed by
the originating peer identifier. -/
def inboundRequestProjection (dbs : db.Database) :
    List (p2p.PeerId × p2p.FriendRequest) :=
  dbs.friend_requests.filterMap (fun r =>
    (dbs.users.find? (fun u => u.id == r.from_user_id)).map (fun u =>
      (u.peer_id,
       { from_peer_id := u.peer_id, from_multiaddr := u.multiaddr
         message := r.message })))

end spec

/-! Concrete fixtures used by counterexamples and witnesses. -/

/-- An empty loop state (all caches empty). -/
def st0 : p2p.LoopState :=
  { friend_list := [], inbound_friend_requests := [], direct_messages := []
    outbound_friend_requests := [], pending_friend_request_responses := []
    outbound_direct_messages := [] }

def userB : db.User :=
  { id := 1, peer_id := "peerB", multiaddr := "/ip4/10.0.0.2/tcp/4001"
    nickname := none, is_identity := false, created_at := 0 }

/-- A store holding exactly one user row, for peerB. -/
def dbB : db.Database := { db.emptyDb with users := [userB], next_user_id := 2 }

def reqB : p2p.FriendRequest :=
  { from_peer_id := "peerB", from_multiaddr := "/ip4/10.0.0.2/tcp/4001"
    message := "hi" }

def postP1 : db.Post :=
  { id := 1, author_peer_id := "peerA", content := "one", created_at := 60
    edited_at := some 70 }

def postP2 : db.Post :=
  { id := 2, author_peer_id := "peerA", content := "two", created_at := 10
    edited_at := none }

/-- A store holding two posts, one of them edited. -/
def dbP : db.Database := { db.emptyDb with posts := [postP1, postP2], next_post_id := 3 }

/-- C10: the list queries fetch_all_friends, fetch_all_friend_requests and
fetch_direct_messages_with_peer answer Err whenever no matching row exists and
never Ok with an empty list, and on a fresh database both startup loads emit
an Error event and fall back to the empty in-memory state. -/
theorem c10_list_queries_error_on_empty :
    (∀ dbs : db.Database, dbs.friends = [] →
        ∃ e, db.fetch_all_friends dbs = .error e) ∧
    (∀ (dbs : db.Database) (l : List db.Friend),
        db.fetch_all_friends dbs = .ok l → l ≠ []) ∧
    (∀ dbs : db.Database, dbs.friend_requests = [] →
        ∃ e, db.fetch_all_friend_requests dbs = .error e) ∧
    (∀ (dbs : db.Database) (l : List db.FriendRequest),
        db.fetch_all_friend_requests dbs = .ok l → l ≠ []) ∧
    (∀ (dbs : db.Database) (pid : String),
        dbs.direct_messages.filter
          (fun m => m.from_peer_id == pid || m.to_peer_id == pid) = [] →
        ∃ e, db.fetch_direct_messages_with_peer dbs pid = .error e) ∧
    (∀ (dbs : db.Database) (pid : String) (l : List db.DirectMessage),
        db.fetch_direct_messages_with_peer dbs pid = .ok l → l ≠ []) ∧
    (∃ e, p2p.load_friend_list db.emptyDb =
        ([], [.emit (.error "fetch_all_friends" e)])) ∧
    (∃ e, p2p.load_inbound_requests db.emptyDb =
        ([], [.emit (.error "fetch_all_friend_requests" e)])) := by
  refine ⟨?_, ?_, ?_, ?_, ?_, ?_, ⟨_, rfl⟩, ⟨_, rfl⟩⟩
  · intro dbs h
    exact ⟨"No friend data was found.", by simp [db.fetch_all_friends, h]⟩
  · intro dbs l h
    unfold db.fetch_all_friends at h
    by_cases he : dbs.friends.isEmpty
    · simp [he] at h
    · simp [he] at h
      rw [← h]
      intro hnil
      exact he (by simp [hnil])
  · intro dbs h
    exact ⟨"No friend request data was found.",
      by simp [db.fetch_all_friend_requests, h]⟩
  · intro dbs l h
    unfold db.fetch_all_friend_requests at h
    by_cases he : dbs.friend_requests.isEmpty
    · simp [he] at h
    · simp [he] at h
      rw [← h]
      intro hnil
      exact he (by simp [hnil])
  · intro dbs pid h
    exact ⟨"A direct message with user_id was not found.",
      by simp [db.fetch_direct_messages_with_peer, h]⟩
  · intro dbs pid l h
    unfold db.fetch_direct_messages_with_peer at h
    by_cases he : (dbs.direct_messages.filter
        (fun m => m.from_peer_id == pid || m.to_peer_id == pid)).isEmpty
    · simp [he] at h
    · simp [he] at h
      rw [← h]
      intro hnil
      exact he (by simp [hnil])

/-- Witness for C10 at the fresh database. -/
theorem c10_witness :
    (∃ e, db.fetch_all_friends db.emptyDb = .error e) ∧
    (∃ e, db.fetch_direct_messages_with_peer db.emptyDb "peerB" = .error e) :=
  ⟨c10_list_queries_error_on_empty.1 db.emptyDb rfl,
   c10_list_queries_error_on_empty.2.2.2.2.1 db.emptyDb "peerB" rfl⟩

/-- C3: a SendDirectMessage command whose target is not in the friend set
completes as a silent no-op: the store is unchanged (no DirectMessage row),
the loop state is unchanged (no outbound buffer entry) and no action at all
is taken (no event, no dial). -/
theorem c3_send_direct_message_to_non_friend_is_noop
    (peer address content self_peer_id : String) (connected dial_ok : Bool)
    (now : Int) (dbs : db.Database) (st : p2p.LoopState)
    (h : peer ∉ st.friend_list) :
    p2p.handle_send_direct_message peer address content self_peer_id connected
      dial_ok now dbs st = (dbs, st, []) := by
  have hc : st.friend_list.contains peer = false := by
    rw [← Bool.not_eq_true]
    intro hct
    exact h (List.elem_iff.mp hct)
  unfold p2p.handle_send_direct_message
  simp [hc, h]

/-- Witness for C3: a concrete non-friend target. -/
theorem c3_witness :
    ("peerX" ∉ st0.friend_list) ∧
    p2p.handle_send_direct_message "peerX" "/ip4/1.2.3.4/tcp/1" "hello" "peerA"
      false true 100 db.emptyDb st0 = (db.emptyDb, st0, []) :=
  ⟨by simp [st0], c3_send_direct_message_to_non_friend_is_noop "peerX"
    "/ip4/1.2.3.4/tcp/1" "hello" "peerA" false true 100 db.emptyDb st0
    (by simp [st0])⟩

/-- C7 counterexample: the SendMessage arm of the current revision performs no
action at all on a concrete command, in particular no gossip publish of the
serialized message occurs, contradicting the claimed publish on the topic. -/
theorem c7_counterexample :
    p2p.handle_send_message "hello" "peerA" 100 db.emptyDb st0 =
      (db.emptyDb, st0, []) := rfl

/-- C7 amended: in the current revision (p2p/mod.rs) the SendMessage command
body is commented out, so the command is a no-op; only the legacy revision
(src/p2p.rs) builds the DirectMessage with the local sender identity and the
current timestamp and publishes it on the topic enclave-messages, persisting
nothing on either path. -/
theorem c7_broadcast_paths (content self_peer_id : String) (now : Int)
    (dbs : db.Database) (st : p2p.LoopState) :
    p2p.handle_send_message content self_peer_id now dbs st = (dbs, st, []) ∧
    p2p.legacy_handle_send_message content self_peer_id now dbs st =
      (dbs, st, [.publish "enclave-messages"
        { from_peer := self_peer_id, content := content, timestamp := now }]) :=
  ⟨rfl, rfl⟩

/-- Rust Option comparison against Some: a >= Some(s) holds exactly when a is
Some value at least s, since None sorts below every Some. -/
theorem rust_option_ge_some_iff (a : Option Int) (s : Int) :
    p2p.rust_option_ge a (some s) = true ↔ ∃ e, a = some e ∧ s ≤ e := by
  cases a <;> simp [p2p.rust_option_ge]

/-- C8: the SynchRequest handler responds with exactly the stored posts whose
created_at is at least since in created_posts and exactly those whose
edited_at is set and at least since in edited_posts (inclusive boundary); a
post without an edit timestamp never appears in edited_posts, and the result
is a function of the stored posts alone, so replaying the request against an
unchanged store yields the same result set. -/
theorem c8_synch_request_result (since : Int) (sender self_peer_id : String)
    (dbs : db.Database) (st : p2p.LoopState) :
    (p2p.Action.sendResponse (.synchResponse
        (p2p.synch_response_of since self_peer_id dbs))
      ∈ (p2p.handle_synch_request since sender self_peer_id dbs st).2.2) ∧
    (∀ p : db.Post,
        p ∈ (p2p.synch_response_of since self_peer_id dbs).created_posts ↔
        p ∈ dbs.posts ∧ since ≤ p.created_at) ∧
    (∀ p : db.Post,
        p ∈ (p2p.synch_response_of since self_peer_id dbs).edited_posts ↔
        p ∈ dbs.posts ∧ ∃ e, p.edited_at = some e ∧ since ≤ e) ∧
    (∀ p : db.Post, p.edited_at = none →
        p ∉ (p2p.synch_response_of since self_peer_id dbs).edited_posts) ∧
    (∀ dbs2 : db.Database, dbs2.posts = dbs.posts →
        p2p.synch_response_of since self_peer_id dbs2 =
          p2p.synch_response_of since self_peer_id dbs) := by
  refine ⟨?_, ?_, ?_, ?_, ?_⟩
  · unfold p2p.handle_synch_request db.fetch_all_posts
    by_cases hp : dbs.posts.isEmpty
    · have hnil : dbs.posts = [] := List.isEmpty_iff.mp hp
      simp [hp, p2p.synch_response_of, hnil]
    · simp [hp, p2p.synch_response_of]
  · intro p
    simp [p2p.synch_response_of, p2p.synch_created_posts, List.mem_filter]
  · intro p
    simp [p2p.synch_response_of, p2p.synch_edited_posts, List.mem_filter,
      rust_option_ge_some_iff]
  · intro p hnone
    simp [p2p.synch_response_of, p2p.synch_edited_posts, List.mem_filter,
      rust_option_ge_some_iff, hnone]
  · intro dbs2 h
    unfold p2p.synch_response_of
    rw [h]

/-- Witness for C8 on a concrete store: an edited post with both timestamps
past the boundary is in created_posts, and an unedited one is excluded from
edited_posts. -/
theorem c8_witness :
    postP1 ∈ (p2p.synch_response_of 50 "peerA" dbP).created_posts ∧
    postP2 ∉ (p2p.synch_response_of 50 "peerA" dbP).edited_posts := by
  have h := c8_synch_request_result 50 "peerB" "peerA" dbP st0
  exact ⟨(h.2.1 postP1).mpr ⟨by simp [dbP, db.emptyDb], by decide⟩,
    h.2.2.2.1 postP2 rfl⟩

/-- A successful lookup by peer id returns an element of the users table. -/
theorem fetch_user_by_peer_id_ok_mem {dbs : db.Database} {p : String}
    {u : db.User} (h : db.fetch_user_by_peer_id dbs p = .ok u) :
    u ∈ dbs.users := by
  unfold db.fetch_user_by_peer_id at h
  cases hf : dbs.users.find? (fun v => v.peer_id == p) with
  | none => rw [hf] at h; cases h
  | some v => rw [hf] at h; cases h; exact List.mem_of_find?_eq_some hf

/-- The users table passes the foreign-key check for a fetched user's id. -/
theorem fetch_user_by_peer_id_ok_any {dbs : db.Database} {p : String}
    {u : db.User} (h : db.fetch_user_by_peer_id dbs p = .ok u) :
    dbs.users.any (fun v => v.id == u.id) = true :=
  List.any_eq_true.mpr ⟨u, fetch_user_by_peer_id_ok_mem h, by simp⟩

/-- On a successful user lookup, handle_friend_request only appends one
friend-request row (and bumps the rowid counter); no other table changes. -/
theorem handle_friend_request_ok_db {peer : p2p.PeerId}
    {request : p2p.FriendRequest} {now : Int} {dbs : db.Database}
    {st : p2p.LoopState} {u : db.User}
    (h : db.fetch_user_by_peer_id dbs peer = .ok u) :
    (p2p.handle_friend_request peer request now dbs st).1 =
      { dbs with
          friend_requests := dbs.friend_requests ++
            [{ id := dbs.next_friend_request_id, from_user_id := u.id
               message := request.message, created_at := now }]
          next_friend_request_id := dbs.next_friend_request_id + 1 } := by
  have hany := fetch_user_by_peer_id_ok_any h
  unfold p2p.handle_friend_request
  rw [h]
  simp [db.create_friend_request, hany]

/-- C1 counterexample: for an originator with no Peer row the handler leaves
the users table empty (it does not create the row), and in both the absent
and the present case the in-memory inbound-request map does not gain an entry
for the originator, contradicting the claimed postcondition. -/
theorem c1_counterexample :
    ((p2p.handle_friend_request "peerB" reqB 100 db.emptyDb st0).1.users = []) ∧
    (p2p.alist_get (p2p.handle_friend_request "peerB" reqB 100 db.emptyDb
        st0).2.1.inbound_friend_requests "peerB" = none) ∧
    (p2p.alist_get (p2p.handle_friend_request "peerB" reqB 100 dbB
        st0).2.1.inbound_friend_requests "peerB" = none) :=
  ⟨rfl, rfl, rfl⟩

/-- C1 amended: the handler emits FriendRequestReceived first; it then looks
the originator up in tbl_users without ever creating a Peer row (on a missing
row it emits an Error and leaves the store unchanged); on success it inserts
a FriendRequest row referencing that peer row; and it never modifies the loop
state, in particular the in-memory inbound-request map gains no entry. -/
theorem c1_friend_request_handler (peer : p2p.PeerId)
    (request : p2p.FriendRequest) (now : Int) (dbs : db.Database)
    (st : p2p.LoopState) :
    ((p2p.handle_friend_request peer request now dbs st).2.1 = st) ∧
    ((p2p.handle_friend_request peer request now dbs st).2.2.head? =
        some (.emit (.friendRequestReceived peer request))) ∧
    ((p2p.handle_friend_request peer request now dbs st).1.users = dbs.users) ∧
    (∀ u : db.User, db.fetch_user_by_peer_id dbs peer = .ok u →
        (p2p.handle_friend_request peer request now dbs st).1.friend_requests =
          dbs.friend_requests ++
            [{ id := dbs.next_friend_request_id, from_user_id := u.id
               message := request.message, created_at := now }]) ∧
    (∀ e : String, db.fetch_user_by_peer_id dbs peer = .error e →
        (p2p.handle_friend_request peer request now dbs st).1 = dbs) := by
  cases hf : db.fetch_user_by_peer_id dbs peer with
  | error e =>
    refine ⟨?_, ?_, ?_, ?_, ?_⟩ <;>
      simp [p2p.handle_friend_request, hf]
  | ok u =>
    have hdb := @handle_friend_request_ok_db peer request now dbs st u hf
    refine ⟨?_, ?_, ?_, ?_, ?_⟩
    · unfold p2p.handle_friend_request
      rw [hf]
      have hany := fetch_user_by_peer_id_ok_any hf
      simp [db.create_friend_request, hany]
    · unfold p2p.handle_friend_request
      rw [hf]
      have hany := fetch_user_by_peer_id_ok_any hf
      simp [db.create_friend_request, hany]
    · rw [hdb]
    · intro v hv
      cases hv
      rw [hdb]
    · intro e he
      cases he

/-- Witness for C1 on the store that has a row for peerB. -/
theorem c1_witness :
    (p2p.handle_friend_request "peerB" reqB 100 dbB st0).1.friend_requests =
      dbB.friend_requests ++
        [{ id := dbB.next_friend_request_id, from_user_id := userB.id
           message := reqB.message, created_at := 100 }] :=
  (c1_friend_request_handler "peerB" reqB 100 dbB st0).2.2.2.1 userB rfl

def identA : db.Identity :=
  { id := 1, keypair := [], peer_id := "peerA", port_number := 5555
    created_at := 0 }

/-- A store where peerB has a user row and a blocked_users row while the local
identity is peerA. -/
def dbBlocked : db.Database :=
  { db.emptyDb with
      identity := some identA
      users := [userB]
      blocked_users := [{ id := 1, user_id := 1, blocked_at := 50 }]
      next_user_id := 2, next_blocked_user_id := 2 }

/-- A loop state whose friend set is exactly peerB. -/
def stFriendB : p2p.LoopState := { st0 with friend_list := ["peerB"] }

def msgB : db.DirectMessage :=
  { id := 7, from_peer_id := "peerB", to_peer_id := "peerA", content := "yo"
    created_at := 60, edited_at := none, read := false }

/-- C2 counterexample: peerB is simultaneously in the friend set and in
tbl_blocked_users; the inbound direct message from peerB is nevertheless
persisted, appended to the thread cache and emitted upstream, contradicting
the claim that a blocked sender causes no insertion, no append and no event. -/
theorem c2_counterexample :
    (db.is_user_blocked dbBlocked userB.id = .ok true) ∧
    ((p2p.handle_direct_message msgB 100 dbBlocked stFriendB).2.2 =
        [.emit (.directMessageReceived msgB)]) ∧
    ((p2p.handle_direct_message msgB 100 dbBlocked stFriendB).1.direct_messages =
        [{ id := 1, from_peer_id := "peerB", to_peer_id := "peerA"
           content := "yo", created_at := 100, edited_at := none
           read := false }]) ∧
    (p2p.alist_get
        (p2p.handle_direct_message msgB 100 dbBlocked stFriendB).2.1.direct_messages
        "peerB" = some [msgB]) :=
  ⟨rfl, rfl, rfl, rfl⟩

/-- C2 amended: every DirectMessageReceived emitted by the request/response
handler carries the inbound message and its sender is in the friend set at
that moment; when the identity row exists, a non-friend sender is a complete
no-op (no row, no cache append, no event); the blocked-user table is never
consulted: the handler's state change and effects are invariant under any
contents of tbl_blocked_users. -/
theorem c2_direct_message_friend_gate (msg : db.DirectMessage) (now : Int)
    (dbs : db.Database) (st : p2p.LoopState) :
    (∀ m : db.DirectMessage,
        p2p.Action.emit (.directMessageReceived m) ∈
          (p2p.handle_direct_message msg now dbs st).2.2 →
        m = msg ∧ msg.from_peer_id ∈ st.friend_list) ∧
    (dbs.identity.isSome = true → msg.from_peer_id ∉ st.friend_list →
        p2p.handle_direct_message msg now dbs st = (dbs, st, [])) ∧
    (∀ bu : List db.BlockedUser,
        (p2p.handle_direct_message msg now { dbs with blocked_users := bu } st).2 =
          (p2p.handle_direct_message msg now dbs st).2) := by
  refine ⟨?_, ?_, ?_⟩
  · intro m hm
    unfold p2p.handle_direct_message at hm
    cases hi : db.fetch_identity dbs with
    | error e => rw [hi] at hm; simp at hm
    | ok ident =>
      rw [hi] at hm
      by_cases hmem : msg.from_peer_id ∈ st.friend_list
      · simp [hmem, db.create_direct_message] at hm
        exact ⟨hm, hmem⟩
      · simp [hmem] at hm
  · intro hid hmem
    unfold p2p.handle_direct_message
    cases hi : db.fetch_identity dbs with
    | error e =>
      unfold db.fetch_identity at hi
      cases ho : dbs.identity with
      | none => rw [ho] at hid; cases hid
      | some i => rw [ho] at hi; cases hi
    | ok ident => simp [hmem]
  · intro bu
    unfold p2p.handle_direct_message
    have hsame : db.fetch_identity { dbs with blocked_users := bu } =
        db.fetch_identity dbs := rfl
    rw [hsame]
    cases hi : db.fetch_identity dbs with
    | error e => rfl
    | ok ident =>
      by_cases hmem : msg.from_peer_id ∈ st.friend_list <;>
        simp [hmem, db.create_direct_message]

/-- Witness for C2: a message from a sender outside the friend set is dropped
with no effect on the concrete store. -/
theorem c2_witness :
    (dbBlocked.identity.isSome = true) ∧
    ("peerB" ∉ st0.friend_list) ∧
    p2p.handle_direct_message msgB 100 dbBlocked st0 = (dbBlocked, st0, []) :=
  ⟨rfl, by simp [st0],
   (c2_direct_message_friend_gate msgB 100 dbBlocked st0).2.1 rfl
     (by simp [st0])⟩

/-- C6 counterexample: two inbound friend requests from the same originator
(peerB) while the first is still pending leave two rows in
tbl_friend_requests, and the first row's message still reads m1, contradicting
the claimed coalescing update and the at-most-one-pending-row invariant. -/
theorem c6_counterexample :
    (p2p.handle_friend_request "peerB"
        { from_peer_id := "peerB", from_multiaddr := "/ip4/10.0.0.2/tcp/4001"
          message := "m2" } 200
        (p2p.handle_friend_request "peerB"
          { from_peer_id := "peerB", from_multiaddr := "/ip4/10.0.0.2/tcp/4001"
            message := "m1" } 100 dbB st0).1
        st0).1.friend_requests =
      [{ id := 1, from_user_id := 1, message := "m1", created_at := 100 },
       { id := 2, from_user_id := 1, message := "m2", created_at := 200 }] := rfl

/-- C6 amended: create_friend_request is a plain INSERT, so a duplicate
inbound request from the same originator appends a second row; the earlier
row (its message included) is left untouched, and several pending rows for
one originator can coexist. -/
theorem c6_duplicate_requests_append (peer : p2p.PeerId)
    (req1 req2 : p2p.FriendRequest) (now1 now2 : Int) (dbs : db.Database)
    (st1 st2 : p2p.LoopState) (u : db.User)
    (h : db.fetch_user_by_peer_id dbs peer = .ok u) :
    (p2p.handle_friend_request peer req2 now2
        (p2p.handle_friend_request peer req1 now1 dbs st1).1 st2).1.friend_requests =
      dbs.friend_requests ++
        [{ id := dbs.next_friend_request_id, from_user_id := u.id
           message := req1.message, created_at := now1 },
         { id := dbs.next_friend_request_id + 1, from_user_id := u.id
           message := req2.message, created_at := now2 }] := by
  have hdb1 := @handle_friend_request_ok_db peer req1 now1 dbs st1 u h
  have h2 : db.fetch_user_by_peer_id
      (p2p.handle_friend_request peer req1 now1 dbs st1).1 peer = .ok u := by
    rw [hdb1]
    exact h
  have hdb2 := @handle_friend_request_ok_db peer req2 now2
    (p2p.handle_friend_request peer req1 now1 dbs st1).1 st2 u h2
  rw [hdb2, hdb1]
  simp

/-- Witness for C6 at the concrete store with one user row. -/
theorem c6_witness :
    (p2p.handle_friend_request "peerB"
        { from_peer_id := "peerB", from_multiaddr := "/ip4/10.0.0.2/tcp/4001"
          message := "mB" } 300
        (p2p.handle_friend_request "peerB"
          { from_peer_id := "peerB", from_multiaddr := "/ip4/10.0.0.2/tcp/4001"
            message := "mA" } 250 dbB st0).1
        st0).1.friend_requests =
      dbB.friend_requests ++
        [{ id := dbB.next_friend_request_id, from_user_id := userB.id
           message := "mA", created_at := 250 },
         { id := dbB.next_friend_request_id + 1, from_user_id := userB.id
           message := "mB", created_at := 300 }] :=
  c6_duplicate_requests_append "peerB"
    { from_peer_id := "peerB", from_multiaddr := "/ip4/10.0.0.2/tcp/4001"
      message := "mA" }
    { from_peer_id := "peerB", from_multiaddr := "/ip4/10.0.0.2/tcp/4001"
      message := "mB" } 250 300 dbB st0 st0 userB rfl

/-- The friend list loaded at loop start equals the Friend-to-Peer join. -/
theorem load_friend_list_eq_projection (dbs : db.Database) :
    (p2p.load_friend_list dbs).1 = spec.friendSetProjection dbs := by
  unfold p2p.load_friend_list spec.friendSetProjection db.fetch_all_friends
  by_cases he : dbs.friends.isEmpty
  · simp [he, List.isEmpty_iff.mp he]
  · simp only [he, Bool.false_eq_true, if_false]
    apply List.filterMap_congr
    intro f _
    unfold db.fetch_user_by_id
    cases hf : dbs.users.find? (fun u => u.id == f.user_id) <;> simp

/-- The inbound map loaded at loop start equals the request-table projection. -/
theorem load_inbound_requests_eq_projection (dbs : db.Database) :
    (p2p.load_inbound_requests dbs).1 = spec.inboundRequestProjection dbs := by
  unfold p2p.load_inbound_requests spec.inboundRequestProjection
    db.fetch_all_friend_requests
  by_cases he : dbs.friend_requests.isEmpty
  · simp [he, List.isEmpty_iff.mp he]
  · simp only [he, Bool.false_eq_true, if_false]
    apply List.filterMap_congr
    intro r _
    unfold db.fetch_user_by_id
    cases hf : dbs.users.find? (fun u => u.id == r.from_user_id) <;> simp

/-- C9 counterexample: starting from a store with a user row for peerB, the
loop state is initialised, then one inbound friend request from peerB is
handled; a friend-request row now exists, yet the in-memory inbound-request
map is still empty, so at the start of the next iteration it no longer equals
the projection of the FriendRequest table and no reconciliation occurred. -/
theorem c9_counterexample :
    ((p2p.handle_friend_request "peerB" reqB 100 dbB
        (p2p.initial_loop_state dbB).1).2.1.inbound_friend_requests = []) ∧
    (spec.inboundRequestProjection
        (p2p.handle_friend_request "peerB" reqB 100 dbB
          (p2p.initial_loop_state dbB).1).1 = [("peerB", reqB)]) ∧
    ((p2p.handle_friend_request "peerB" reqB 100 dbB
        (p2p.initial_loop_state dbB).1).2.1.inbound_friend_requests ≠
      spec.inboundRequestProjection
        (p2p.handle_friend_request "peerB" reqB 100 dbB
          (p2p.initial_loop_state dbB).1).1) := by
  refine ⟨rfl, rfl, ?_⟩
  intro h
  have hlen := congrArg List.length h
  rw [show (p2p.handle_friend_request "peerB" reqB 100 dbB
      (p2p.initial_loop_state dbB).1).2.1.inbound_friend_requests = [] from rfl,
    show spec.inboundRequestProjection
      (p2p.handle_friend_request "peerB" reqB 100 dbB
        (p2p.initial_loop_state dbB).1).1 = [("peerB", reqB)] from rfl] at hlen
  simp at hlen

/-- C9 amended: the in-memory friend set and inbound-request map equal the
projections of the Friend and FriendRequest tables when they are loaded, once,
before the first loop iteration; afterwards the inbound friend-request
handler never updates the loop state, so the map is not reconciled with the
table inside the loop. -/
theorem c9_caches_loaded_once_only :
    (∀ dbs : db.Database,
        (p2p.initial_loop_state dbs).1.friend_list =
          spec.friendSetProjection dbs) ∧
    (∀ dbs : db.Database,
        (p2p.initial_loop_state dbs).1.inbound_friend_requests =
          spec.inboundRequestProjection dbs) ∧
    (∀ (peer : p2p.PeerId) (request : p2p.FriendRequest) (now : Int)
        (dbs : db.Database) (st : p2p.LoopState),
        (p2p.handle_friend_request peer request now dbs st).2.1 = st) := by
  refine ⟨?_, ?_, ?_⟩
  · intro dbs
    exact load_friend_list_eq_projection dbs
  · intro dbs
    exact load_inbound_requests_eq_projection dbs
  · intro peer request now dbs st
    unfold p2p.handle_friend_request
    cases hf : db.fetch_user_by_peer_id dbs peer with
    | error e => rfl
    | ok u =>
      dsimp only
      cases hc : db.create_friend_request dbs u.id request.message now with
      | error e => rfl
      | ok p =>
        obtain ⟨d2, i2⟩ := p
        rfl

/-- Sending or buffering the accepting response never changes the store and
never changes the friend list. -/
theorem accept_send_response_preserves (peer self_peer_id : String)
    (laddrs : List String) (relay : Option String) (connected dial_ok : Bool)
    (dbs : db.Database) (st : p2p.LoopState) (acts : List p2p.Action) :
    ((p2p.accept_send_response peer self_peer_id laddrs relay connected
        dial_ok dbs st acts).1 = dbs) ∧
    ((p2p.accept_send_response peer self_peer_id laddrs relay connected
        dial_ok dbs st acts).2.1.friend_list = st.friend_list) := by
  unfold p2p.accept_send_response
  by_cases hcon : connected
  · simp [hcon]
  · simp only [hcon, Bool.false_eq_true, if_false]
    cases hf : db.fetch_user_by_peer_id dbs peer with
    | error e => simp
    | ok u =>
      by_cases hd : dial_ok <;> simp [hd]

/-- A successful create_friend appends exactly one row for that user id, and
requires that no row for it existed. -/
theorem create_friend_rows {dbs : db.Database} {uid now : Int}
    {dbs2 : db.Database} {i : Int}
    (h : db.create_friend dbs uid now = .ok (dbs2, i)) :
    dbs2.friends = dbs.friends ++
      [{ id := dbs.next_friend_id, user_id := uid, created_at := now }] ∧
    dbs.friends.any (fun f => f.user_id == uid) = false := by
  unfold db.create_friend at h
  by_cases h1 : dbs.friends.any (fun f => f.user_id == uid)
  · simp [h1] at h
  · by_cases h2 : dbs.users.any (fun u => u.id == uid)
    · simp only [h1, Bool.false_eq_true, if_false, h2, if_true] at h
      cases h
      exact ⟨rfl, by simp [h1]⟩
    · simp [h1, h2] at h

/-- Appending a fresh row for uid keeps every per-user row count at most 1,
provided no row for uid existed before. -/
theorem filter_length_after_create (friends : List db.Friend) (uid vid : Int)
    (row : db.Friend) (hrow : row.user_id = uid)
    (hnone : friends.any (fun f => f.user_id == uid) = false)
    (hv : (friends.filter (fun f => f.user_id == vid)).length ≤ 1) :
    (((friends ++ [row]).filter (fun f => f.user_id == vid)).length ≤ 1) := by
  rw [List.filter_append]
  by_cases hvu : vid = uid
  · subst hvu
    have hnil : friends.filter (fun f => f.user_id == vid) = [] := by
      rw [List.filter_eq_nil_iff]
      intro f hf
      have := List.any_eq_false.mp hnone f hf
      simpa using this
    simp [hnil, hrow]
  · have hne : (row.user_id == vid) = false := by
      rw [hrow]
      simpa using fun he => hvu he.symm
    simp [hne]
    exact hv

/-- A list whose contains test is false does not hold the element. -/
theorem notmem_of_contains_false {l : List String} {a : String}
    (hl : l.contains a = false) : a ∉ l := by
  intro hm
  have h1 : l.contains a = true := by simpa using hm
  rw [h1] at hl
  cases hl

/-- C4: accepting a friend request is idempotent. Both the AcceptFriendRequest
command handler and the accepting-response handler create at most one Friend
row per user (every per-user row count stays at most 1) and keep the peer at
most once in the in-memory friend set; when the peer is already in the friend
set, neither touches the Friend table or the friend set again. -/
theorem c4_accept_and_response_idempotent
    (peer self_peer_id maddr : String) (laddrs : List String)
    (relay : Option String) (connected dial_ok : Bool) (now : Int)
    (dbs : db.Database) (st : p2p.LoopState) (uid : Int) :
    (((dbs.friends.filter (fun f => f.user_id == uid)).length ≤ 1 →
      (((p2p.handle_accept_friend_request peer self_peer_id laddrs relay
          connected dial_ok now dbs st).1.friends.filter
            (fun f => f.user_id == uid)).length ≤ 1)) ∧
    (st.friend_list.count peer ≤ 1 →
      (p2p.handle_accept_friend_request peer self_peer_id laddrs relay
          connected dial_ok now dbs st).2.1.friend_list.count peer ≤ 1) ∧
    (peer ∈ st.friend_list →
      (p2p.handle_accept_friend_request peer self_peer_id laddrs relay
          connected dial_ok now dbs st).1.friends = dbs.friends ∧
      (p2p.handle_accept_friend_request peer self_peer_id laddrs relay
          connected dial_ok now dbs st).2.1.friend_list = st.friend_list)) ∧
    (((dbs.friends.filter (fun f => f.user_id == uid)).length ≤ 1 →
      (((p2p.handle_friend_request_response peer
          { accepted := true, multiaddr := maddr } now dbs st).1.friends.filter
            (fun f => f.user_id == uid)).length ≤ 1)) ∧
    (st.friend_list.count peer ≤ 1 →
      (p2p.handle_friend_request_response peer
          { accepted := true, multiaddr := maddr } now dbs
          st).2.1.friend_list.count peer ≤ 1) ∧
    (peer ∈ st.friend_list →
      (p2p.handle_friend_request_response peer
          { accepted := true, multiaddr := maddr } now dbs st).1 = dbs ∧
      (p2p.handle_friend_request_response peer
          { accepted := true, multiaddr := maddr } now dbs st).2.1 = st)) := by
  have hacc :
      ((p2p.handle_accept_friend_request peer self_peer_id laddrs relay
          connected dial_ok now dbs st).1.friends = dbs.friends ∧
       (p2p.handle_accept_friend_request peer self_peer_id laddrs relay
          connected dial_ok now dbs st).2.1.friend_list = st.friend_list) ∨
      (peer ∉ st.friend_list ∧ ∃ u : db.User,
        (p2p.handle_accept_friend_request peer self_peer_id laddrs relay
            connected dial_ok now dbs st).1.friends =
          dbs.friends ++
            [{ id := dbs.next_friend_id, user_id := u.id, created_at := now }] ∧
        dbs.friends.any (fun f => f.user_id == u.id) = false ∧
        (p2p.handle_accept_friend_request peer self_peer_id laddrs relay
            connected dial_ok now dbs st).2.1.friend_list =
          st.friend_list ++ [peer]) := by
    unfold p2p.handle_accept_friend_request
    by_cases hc : st.friend_list.contains peer
    · left
      simp only [hc, if_true]
      have hp := accept_send_response_preserves peer self_peer_id laddrs relay
        connected dial_ok dbs st []
      exact ⟨by rw [hp.1], hp.2⟩
    · simp only [Bool.not_eq_true] at hc
      have hnm := notmem_of_contains_false hc
      simp only [hc, Bool.false_eq_true, if_false]
      cases hf : db.fetch_user_by_peer_id dbs peer with
      | error e => exact Or.inl ⟨rfl, rfl⟩
      | ok u =>
        dsimp only
        cases hcr : db.create_friend dbs u.id now with
        | error e => exact Or.inl ⟨rfl, rfl⟩
        | ok p =>
          obtain ⟨dbs2, i⟩ := p
          obtain ⟨hrows, hany⟩ := create_friend_rows hcr
          dsimp only
          cases hfr : db.fetch_friend_request_by_from_user_id dbs2 u.id with
          | error e =>
            have hp := accept_send_response_preserves peer self_peer_id laddrs
              relay connected dial_ok dbs2
              { st with friend_list := st.friend_list ++ [peer] }
              [.addExplicitPeer peer]
            exact Or.inr ⟨hnm, u, by rw [hp.1, hrows], hany, hp.2⟩
          | ok friend_request =>
            dsimp only [db.delete_friend_request]
            have hp := accept_send_response_preserves peer self_peer_id laddrs
              relay connected dial_ok
              { dbs2 with friend_requests :=
                  dbs2.friend_requests.filter (fun r => r.id != friend_request.id) }
              { st with friend_list := st.friend_list ++ [peer] }
              [.addExplicitPeer peer]
            exact Or.inr ⟨hnm, u, by rw [hp.1]; exact hrows, hany, hp.2⟩
  have hresp :
      ((p2p.handle_friend_request_response peer
          { accepted := true, multiaddr := maddr } now dbs st).1 = dbs ∧
       (p2p.handle_friend_request_response peer
          { accepted := true, multiaddr := maddr } now dbs st).2.1 = st) ∨
      (peer ∉ st.friend_list ∧ ∃ u : db.User,
        (p2p.handle_friend_request_response peer
            { accepted := true, multiaddr := maddr } now dbs st).1.friends =
          dbs.friends ++
            [{ id := dbs.next_friend_id, user_id := u.id, created_at := now }] ∧
        dbs.friends.any (fun f => f.user_id == u.id) = false ∧
        (p2p.handle_friend_request_response peer
            { accepted := true, multiaddr := maddr } now dbs
            st).2.1.friend_list = st.friend_list ++ [peer]) := by
    unfold p2p.handle_friend_request_response
    by_cases hc : st.friend_list.contains peer
    · left
      simp only [hc, if_true]
      refine ⟨?_, ?_⟩ <;> trivial
    · simp only [Bool.not_eq_true] at hc
      have hnm := notmem_of_contains_false hc
      simp only [hc, Bool.false_eq_true, if_false, if_true]
      cases hf : db.fetch_user_by_peer_id dbs peer with
      | error e => exact Or.inl ⟨rfl, rfl⟩
      | ok u =>
        dsimp only
        cases hcr : db.create_friend dbs u.id now with
        | error e => exact Or.inl ⟨rfl, rfl⟩
        | ok p =>
          obtain ⟨dbs2, i⟩ := p
          obtain ⟨hrows, hany⟩ := create_friend_rows hcr
          exact Or.inr ⟨hnm, u, hrows, hany, rfl⟩
  constructor
  · refine ⟨?_, ?_, ?_⟩
    · intro hv
      rcases hacc with ⟨hfr, _⟩ | ⟨_, u, hfr, hany, _⟩
      · rw [hfr]; exact hv
      · rw [hfr]
        exact filter_length_after_create dbs.friends u.id uid _ rfl hany hv
    · intro hcount
      rcases hacc with ⟨_, hlist⟩ | ⟨hnm, u, _, _, hlist⟩
      · rw [hlist]; exact hcount
      · rw [hlist, List.count_append]
        have hz : st.friend_list.count peer = 0 := List.count_eq_zero.mpr hnm
        simp [hz]
    · intro hmem
      rcases hacc with ⟨hfr, hlist⟩ | ⟨hnm, _⟩
      · exact ⟨hfr, hlist⟩
      · exact absurd hmem hnm
  · refine ⟨?_, ?_, ?_⟩
    · intro hv
      rcases hresp with ⟨hdb, _⟩ | ⟨_, u, hfr, hany, _⟩
      · rw [hdb]; exact hv
      · rw [hfr]
        exact filter_length_after_create dbs.friends u.id uid _ rfl hany hv
    · intro hcount
      rcases hresp with ⟨_, hst⟩ | ⟨hnm, u, _, _, hlist⟩
      · rw [hst]; exact hcount
      · rw [hlist, List.count_append]
        have hz : st.friend_list.count peer = 0 := List.count_eq_zero.mpr hnm
        simp [hz]
    · intro hmem
      rcases hresp with ⟨hdb, hst⟩ | ⟨hnm, _⟩
      · exact ⟨hdb, hst⟩
      · exact absurd hmem hnm

/-- Witness for C4: with peerB already in the friend set, a repeated accept
and an accepting response leave the Friend table, the friend list and the
per-user row count unchanged and bounded. -/
theorem c4_witness :
    ("peerB" ∈ stFriendB.friend_list) ∧
    (((p2p.handle_accept_friend_request "peerB" "peerA" [] none true true 100
        dbB stFriendB).1.friends.filter (fun f => f.user_id == 1)).length ≤ 1) ∧
    ((p2p.handle_accept_friend_request "peerB" "peerA" [] none true true 100
        dbB stFriendB).1.friends = dbB.friends) ∧
    ((p2p.handle_friend_request_response "peerB"
        { accepted := true, multiaddr := "" } 100 dbB stFriendB).2.1 =
      stFriendB) := by
  have h := c4_accept_and_response_idempotent "peerB" "peerA" ""
    [] none true true 100 dbB stFriendB 1
  have hmem : "peerB" ∈ stFriendB.friend_list := by simp [stFriendB, st0]
  exact ⟨hmem, h.1.1 (by simp [dbB, db.emptyDb]),
    (h.1.2.2 hmem).1, (h.2.2.2 hmem).2⟩

/-- Inserting a binding makes it the one the map returns for that key. -/
theorem alist_get_insert_self {α : Type} (m : List (p2p.PeerId × α))
    (k : p2p.PeerId) (v : α) :
    p2p.alist_get (p2p.alist_insert m k v) k = some v := by
  unfold p2p.alist_get p2p.alist_insert
  rw [List.find?_cons_of_pos]
  · rfl
  · simp

/-- Removing a key leaves no binding for it. -/
theorem alist_get_remove_self {α : Type} (m : List (p2p.PeerId × α))
    (k : p2p.PeerId) :
    p2p.alist_get (p2p.alist_remove m k) k = none := by
  unfold p2p.alist_get p2p.alist_remove
  rw [List.find?_eq_none.mpr]
  · rfl
  · intro e he hbeq
    have h2 := (List.mem_filter.mp he).2
    rw [bne_iff_ne] at h2
    exact h2 (beq_iff_eq.mp hbeq)

/-- Well-formedness of the direct-message table: every stored rowid is below
the next rowid, as SQLite maintains. -/
def dm_ids_bounded (dbs : db.Database) : Prop :=
  ∀ m ∈ dbs.direct_messages, m.id < dbs.next_direct_message_id

/-- The freshly inserted direct-message row is the one a fetch by the new
rowid returns, because no earlier row carries that rowid. -/
theorem fetch_created_direct_message (dbs : db.Database)
    (f t c : String) (now : Int) (hb : dm_ids_bounded dbs) :
    db.fetch_direct_message_by_id
      { dbs with
          direct_messages := dbs.direct_messages ++
            [{ id := dbs.next_direct_message_id, from_peer_id := f
               to_peer_id := t, content := c, created_at := now
               edited_at := none, read := false }]
          next_direct_message_id := dbs.next_direct_message_id + 1 }
      dbs.next_direct_message_id =
      .ok { id := dbs.next_direct_message_id, from_peer_id := f
            to_peer_id := t, content := c, created_at := now
            edited_at := none, read := false } := by
  unfold db.fetch_direct_message_by_id
  have hnone : dbs.direct_messages.find?
      (fun m => m.id == dbs.next_direct_message_id) = none := by
    rw [List.find?_eq_none]
    intro m hm hbeq
    exact absurd (beq_iff_eq.mp hbeq) (Int.ne_of_lt (hb m hm))
  rw [List.find?_append, hnone]
  simp

/-- Appending the fresh row preserves the rowid bound. -/
theorem dm_ids_bounded_after_create (dbs : db.Database)
    (f t c : String) (now : Int) (hb : dm_ids_bounded dbs) :
    dm_ids_bounded
      { dbs with
          direct_messages := dbs.direct_messages ++
            [{ id := dbs.next_direct_message_id, from_peer_id := f
               to_peer_id := t, content := c, created_at := now
               edited_at := none, read := false }]
          next_direct_message_id := dbs.next_direct_message_id + 1 } := by
  intro m hm
  dsimp only at hm ⊢
  rcases List.mem_append.mp hm with hold | hnew
  · exact lt_trans (hb m hold) (lt_add_one _)
  · rw [List.mem_singleton] at hnew
    rw [hnew]
    exact lt_add_one _

/-- The row a buffered SendDirectMessage persists: fresh rowid, our identity
as sender, the target peer as recipient. -/
def fresh_dm_row (dbs : db.Database) (self_peer_id peer content : String)
    (now : Int) : db.DirectMessage :=
  { id := dbs.next_direct_message_id, from_peer_id := self_peer_id
    to_peer_id := peer, content := content, created_at := now
    edited_at := none, read := false }

/-- The store after inserting that row. -/
def db_after_dm_insert (dbs : db.Database) (self_peer_id peer content : String)
    (now : Int) : db.Database :=
  { dbs with
      direct_messages := dbs.direct_messages ++
        [fresh_dm_row dbs self_peer_id peer content now]
      next_direct_message_id := dbs.next_direct_message_id + 1 }

/-- The loop state after appending that row to the per-peer outbound queue. -/
def st_after_dm_buffer (dbs : db.Database) (self_peer_id peer content : String)
    (now : Int) (st : p2p.LoopState) : p2p.LoopState :=
  let q := (p2p.alist_get st.outbound_direct_messages peer).getD []
  let odm := p2p.alist_insert st.outbound_direct_messages peer
    (q ++ [fresh_dm_row dbs self_peer_id peer content now])
  { st with outbound_direct_messages := odm }

/-- One SendDirectMessage command handled while the peer is a friend but not
connected, with a successful dial: it persists the row, emits
DirectMessageSent, appends the row to the per-peer outbound queue and dials. -/
theorem send_dm_buffered_step (peer address content self_peer_id : String)
    (now : Int) (dbs : db.Database) (st : p2p.LoopState)
    (hfl : st.friend_list.contains peer = true) (hb : dm_ids_bounded dbs) :
    p2p.handle_send_direct_message peer address content self_peer_id false true
      now dbs st =
      (db_after_dm_insert dbs self_peer_id peer content now,
       st_after_dm_buffer dbs self_peer_id peer content now st,
       [.emit (.directMessageSent (fresh_dm_row dbs self_peer_id peer content now)),
        .dial address]) := by
  unfold p2p.handle_send_direct_message
  simp only [hfl, if_true]
  rw [show db.create_direct_message dbs self_peer_id peer content now =
    .ok (db_after_dm_insert dbs self_peer_id peer content now,
      dbs.next_direct_message_id) from rfl]
  have hfetch : db.fetch_direct_message_by_id
      (db_after_dm_insert dbs self_peer_id peer content now)
      dbs.next_direct_message_id =
      .ok (fresh_dm_row dbs self_peer_id peer content now) :=
    fetch_created_direct_message dbs self_peer_id peer content now hb
  dsimp only
  rw [hfetch]
  rfl

/-- Harness: the store and loop state after a sequence of SendDirectMessage
commands to one peer, each issued while the peer is not connected and with a
successful dial (the actions of each step are the ones send_dm_buffered_step
describes). -/
def send_direct_messages (contents : List String)
    (peer address self_peer_id : String) (now : Int)
    (dbs : db.Database) (st : p2p.LoopState) : db.Database × p2p.LoopState :=
  contents.foldl (fun acc c =>
    ((p2p.handle_send_direct_message peer address c self_peer_id false true
        now acc.1 acc.2).1,
     (p2p.handle_send_direct_message peer address c self_peer_id false true
        now acc.1 acc.2).2.1))
    (dbs, st)

/-- Issuing buffered sends appends to the per-peer queue in command order and
touches neither the friend list nor the other outbound buffers. -/
theorem send_direct_messages_invariant (peer address self_peer_id : String)
    (now : Int) :
    ∀ (contents : List String) (dbs : db.Database) (st : p2p.LoopState)
      (q : List db.DirectMessage),
    st.friend_list.contains peer = true →
    dm_ids_bounded dbs →
    (p2p.alist_get st.outbound_direct_messages peer).getD [] = q →
    ∃ msgs : List db.DirectMessage,
      ((send_direct_messages contents peer address self_peer_id now dbs
          st).2.friend_list = st.friend_list) ∧
      ((send_direct_messages contents peer address self_peer_id now dbs
          st).2.outbound_friend_requests = st.outbound_friend_requests) ∧
      ((send_direct_messages contents peer address self_peer_id now dbs
          st).2.pending_friend_request_responses =
        st.pending_friend_request_responses) ∧
      ((p2p.alist_get (send_direct_messages contents peer address self_peer_id
          now dbs st).2.outbound_direct_messages peer).getD [] = q ++ msgs) ∧
      (msgs.map (fun m => m.content) = contents) ∧
      dm_ids_bounded (send_direct_messages contents peer address self_peer_id
        now dbs st).1 := by
  intro contents
  induction contents with
  | nil =>
    intro dbs st q hfl hb hq
    exact ⟨[], rfl, rfl, rfl, by simpa using hq, rfl, hb⟩
  | cons c cs ih =>
    intro dbs st q hfl hb hq
    have hstep := send_dm_buffered_step peer address c self_peer_id now dbs st
      hfl hb
    have hfold : send_direct_messages (c :: cs) peer address self_peer_id now
        dbs st =
      send_direct_messages cs peer address self_peer_id now
        (db_after_dm_insert dbs self_peer_id peer c now)
        (st_after_dm_buffer dbs self_peer_id peer c now st) := by
      unfold send_direct_messages
      rw [List.foldl_cons, hstep]
    have hfl2 : (st_after_dm_buffer dbs self_peer_id peer c now
        st).friend_list.contains peer = true := hfl
    have hb2 : dm_ids_bounded (db_after_dm_insert dbs self_peer_id peer c now) :=
      dm_ids_bounded_after_create dbs self_peer_id peer c now hb
    have hq2 : (p2p.alist_get (st_after_dm_buffer dbs self_peer_id peer c now
        st).outbound_direct_messages peer).getD [] =
        q ++ [fresh_dm_row dbs self_peer_id peer c now] := by
      unfold st_after_dm_buffer
      rw [alist_get_insert_self]
      simp [hq]
    obtain ⟨msgs2, h1, h2, h3, h4, h5, h6⟩ := ih
      (db_after_dm_insert dbs self_peer_id peer c now)
      (st_after_dm_buffer dbs self_peer_id peer c now st)
      (q ++ [fresh_dm_row dbs self_peer_id peer c now]) hfl2 hb2 hq2
    refine ⟨fresh_dm_row dbs self_peer_id peer c now :: msgs2,
      ?_, ?_, ?_, ?_, ?_, ?_⟩
    · rw [hfold]; exact h1
    · rw [hfold]; exact h2
    · rw [hfold]; exact h3
    · rw [hfold, h4]
      simp
    · simp [h5, fresh_dm_row]
    · rw [hfold]; exact h6

/-- When no friend request or response is buffered for the connecting peer,
the ConnectionEstablished handler emits PeerConnected and then sends exactly
the per-peer outbound direct-message queue, in queue order, emptying it. -/
theorem connection_established_drains_queue (peer endpoint_addr : String)
    (now : Int) (dbs : db.Database) (st : p2p.LoopState)
    (h1 : p2p.alist_get st.outbound_friend_requests peer = none)
    (h2 : p2p.alist_get st.pending_friend_request_responses peer = none) :
    ((p2p.handle_connection_established peer endpoint_addr now dbs st).2.2 =
      .emit (.peerConnected peer) ::
        ((p2p.alist_get st.outbound_direct_messages peer).getD []).map
          (fun dm => .sendRequest peer (.directMessage dm))) ∧
    (p2p.alist_get
      (p2p.handle_connection_established peer endpoint_addr now dbs
        st).2.1.outbound_direct_messages peer = none) := by
  unfold p2p.handle_connection_established
  rw [h1]
  dsimp only [db.create_user]
  rw [h2]
  dsimp only
  cases hdm : p2p.alist_get st.outbound_direct_messages peer with
  | none => exact ⟨rfl, by simpa using hdm⟩
  | some dms =>
    constructor
    · rfl
    · exact alist_get_remove_self _ _

/-- C5: FIFO buffer drain. If SendDirectMessage to a friend peer P is issued
N times while P is not connected (each dial succeeding) and P then connects,
the ConnectionEstablished handler sends over the request/response channel,
after the PeerConnected event, exactly those N messages as DirectMessage
requests to P in the order the commands were issued, and the per-peer
outbound queue is emptied. The hypotheses state the operating conditions: P
is in the friend set, the stored rowids are below the rowid counter, and no
other buffered entry exists for P. -/
theorem c5_buffered_sends_drain_fifo (contents : List String)
    (peer address endpoint_addr self_peer_id : String) (now now2 : Int)
    (dbs : db.Database) (st : p2p.LoopState)
    (hmem : peer ∈ st.friend_list)
    (hb : dm_ids_bounded dbs)
    (hq : (p2p.alist_get st.outbound_direct_messages peer).getD [] = [])
    (h1 : p2p.alist_get st.outbound_friend_requests peer = none)
    (h2 : p2p.alist_get st.pending_friend_request_responses peer = none) :
    ∃ msgs : List db.DirectMessage,
      msgs.map (fun m => m.content) = contents ∧
      ((p2p.handle_connection_established peer endpoint_addr now2
          (send_direct_messages contents peer address self_peer_id now dbs st).1
          (send_direct_messages contents peer address self_peer_id now dbs
            st).2).2.2 =
        .emit (.peerConnected peer) ::
          msgs.map (fun dm => .sendRequest peer (.directMessage dm))) ∧
      (p2p.alist_get
        (p2p.handle_connection_established peer endpoint_addr now2
          (send_direct_messages contents peer address self_peer_id now dbs st).1
          (send_direct_messages contents peer address self_peer_id now dbs
            st).2).2.1.outbound_direct_messages peer = none) := by
  have hfl : st.friend_list.contains peer = true := by simpa using hmem
  obtain ⟨msgs, hfl1, hofr, hpend, hgetD, hmap, hbnd⟩ :=
    send_direct_messages_invariant peer address self_peer_id now contents
      dbs st [] hfl hb hq
  have hd := connection_established_drains_queue peer endpoint_addr now2
    (send_direct_messages contents peer address self_peer_id now dbs st).1
    (send_direct_messages contents peer address self_peer_id now dbs st).2
    (by rw [hofr]; exact h1) (by rw [hpend]; exact h2)
  refine ⟨msgs, hmap, ?_, hd.2⟩
  rw [hd.1, hgetD]
  simp

/-- Witness for C5: two buffered messages to peerB are drained in order. -/
theorem c5_witness :
    ∃ msgs : List db.DirectMessage,
      msgs.map (fun m => m.content) = ["hello1", "hello2"] ∧
      ((p2p.handle_connection_established "peerB" "/ip4/10.0.0.2/tcp/4001" 200
          (send_direct_messages ["hello1", "hello2"] "peerB"
            "/ip4/10.0.0.2/tcp/4001" "peerA" 100 dbB stFriendB).1
          (send_direct_messages ["hello1", "hello2"] "peerB"
            "/ip4/10.0.0.2/tcp/4001" "peerA" 100 dbB stFriendB).2).2.2 =
        .emit (.peerConnected "peerB") ::
          msgs.map (fun dm => .sendRequest "peerB" (.directMessage dm))) ∧
      (p2p.alist_get
        (p2p.handle_connection_established "peerB" "/ip4/10.0.0.2/tcp/4001" 200
          (send_direct_messages ["hello1", "hello2"] "peerB"
            "/ip4/10.0.0.2/tcp/4001" "peerA" 100 dbB stFriendB).1
          (send_direct_messages ["hello1", "hello2"] "peerB"
            "/ip4/10.0.0.2/tcp/4001" "peerA" 100 dbB
            stFriendB).2).2.1.outbound_direct_messages "peerB" = none) :=
  c5_buffered_sends_drain_fifo ["hello1", "hello2"] "peerB"
    "/ip4/10.0.0.2/tcp/4001" "/ip4/10.0.0.2/tcp/4001" "peerA" 100 200
    dbB stFriendB (by simp [stFriendB, st0])
    (by intro m hm; simp [dbB, db.emptyDb] at hm) rfl rfl rfl
